import Mathlib

/-!
Shallow embedding of the krita reference-image viewer panel
(src/reference/reference.py): the `ReferenceViewer` widget state and its
event handlers, and the `ReferenceDocker` slider-zoom mapping functions.

Conventions of the embedding:
* Python floats are modelled as exact rationals for the viewer arithmetic
  and as reals for the transcendental slider mapping (math.pow / math.log).
* Qt's QPoint and QSize scalar multiplication/division round each integer
  component with qRound (round half away from zero); this is modelled by
  `qround` and the `qpMul` / `qpDiv` operations.
* Python's int(...) truncates toward zero; modelled by `pyInt`.
* Attribute access on a never-assigned attribute (self.minimumZoom before
  any non-null resetView) raises AttributeError; a field that may be unset
  is an Option, and a handler that can fault returns an Option result.
* Qt signal emissions are collected in an output list of `Signal`s.
-/

/-- Qt qRound: round half away from zero (d >= 0 ? int(d+0.5) : int(d-0.5)). -/
def qround (q : ℚ) : ℤ := if 0 ≤ q then ⌊q + 1/2⌋ else ⌈q - 1/2⌉

/-- Python int(): truncation toward zero. -/
def pyInt (q : ℚ) : ℤ := if 0 ≤ q then ⌊q⌋ else ⌈q⌉

/-- Qt QPoint: a pair of integer coordinates. -/
structure QPoint where
  x : ℤ
  y : ℤ
deriving DecidableEq

/-- QPoint + QPoint (exact, componentwise). -/
def qpAdd (a b : QPoint) : QPoint := ⟨a.x + b.x, a.y + b.y⟩

/-- QPoint - QPoint (exact, componentwise). -/
def qpSub (a b : QPoint) : QPoint := ⟨a.x - b.x, a.y - b.y⟩

/-- QPoint * qreal: each component multiplied then qRound-ed. -/
def qpMul (a : QPoint) (c : ℚ) : QPoint := ⟨qround (a.x * c), qround (a.y * c)⟩

/-- QPoint / qreal: each component divided then qRound-ed. -/
def qpDiv (a : QPoint) (c : ℚ) : QPoint := ⟨qround ((a.x : ℚ) / c), qround ((a.y : ℚ) / c)⟩

/-- A non-null QImage: positive integer dimensions (a null image is `none`
at the use sites). Pixel contents are supplied externally as a lookup
function, mirroring the external image decoder of the host. -/
structure QImageData where
  width : ℤ
  height : ℤ
deriving DecidableEq

/-- A local or remote URL in a drag-and-drop payload. -/
structure QUrl where
  isLocal : Bool
  path : String
deriving DecidableEq

/-- Signals emitted by ReferenceViewer: colorPicked (QColor, possibly the
None currentColor), imageChanged (bool), sliderReset (float). -/
inductive Signal where
  | imageChanged (hasImage : Bool)
  | colorPicked (color : Option ℤ)
  | sliderReset (ratio : ℚ)
deriving DecidableEq

/-- The mutable state of a ReferenceViewer widget.  `minimumZoom` is an
Option because __init__ never assigns it: it only comes into existence in
resetView's non-null-image branch (reading it before that is an
AttributeError).  `viewW`/`viewH` model self.size(). -/
structure ViewerState where
  image : Option QImageData
  zoom : ℚ
  initialZoom : ℚ
  oldZoom : Option ℚ
  origin : QPoint
  oldOrigin : Option QPoint
  pressedPoint : Option QPoint
  moving : Bool
  currentColor : Option ℤ
  picking : Option QPoint
  minimumZoom : Option ℚ
  viewW : ℤ
  viewH : ℤ
deriving DecidableEq

/-- ReferenceViewer.__init__ (widget size supplied by the layout system). -/
def initState (w h : ℤ) : ViewerState :=
  { image := none, zoom := 1, initialZoom := 1, oldZoom := none,
    origin := ⟨0, 0⟩, oldOrigin := none, pressedPoint := none,
    moving := false, currentColor := none, picking := none,
    minimumZoom := none, viewW := w, viewH := h }

/-- ReferenceViewer.getCurrentColor: sample the image at
(event.pos() - origin) / zoom (a rounded QPoint division), None when the
image is null.  `pix` is the external per-pixel colour query. -/
def getCurrentColor (pix : QImageData → QPoint → ℤ) (st : ViewerState)
    (pos : QPoint) : Option ℤ :=
  match st.image with
  | some img => some (pix img (qpDiv (qpSub pos st.origin) st.zoom))
  | none => none

/-- ReferenceViewer.resetSlider: emit sliderReset(zoom / initialZoom). -/
def resetSlider (st : ViewerState) : Signal :=
  Signal.sliderReset (st.zoom / st.initialZoom)

/-- ReferenceViewer.resetView.  Null image: repaint only.  Otherwise fit the
image to the viewport, derive minimumZoom, and center: the QSize product
image.size() * zoom rounds each component with qRound, and the Python
int(overflow/2) truncates. -/
def resetView (st : ViewerState) : ViewerState × List Signal :=
  match st.image with
  | none => (st, [])
  | some img =>
    let iz : ℚ := min ((st.viewW : ℚ) / img.width) ((st.viewH : ℚ) / img.height)
    let ow : ℤ := st.viewW - qround ((img.width : ℚ) * iz)
    let oh : ℤ := st.viewH - qround ((img.height : ℚ) * iz)
    let st' : ViewerState :=
      { st with initialZoom := iz, minimumZoom := some (iz * (1/4)), zoom := iz,
                origin := ⟨pyInt ((ow : ℚ) / 2), pyInt ((oh : ℚ) / 2)⟩ }
    (st', [resetSlider st'])

/-- ReferenceViewer.setImage: replace the image, emit imageChanged with the
nullity of the new image, then resetView. -/
def setImage (st : ViewerState) (img : Option QImageData) : ViewerState × List Signal :=
  let st1 := { st with image := img }
  let r := resetView st1
  (r.1, Signal.imageChanged img.isSome :: r.2)

/-- ReferenceViewer.mousePressEvent: record the drag anchor
(pressedPoint, oldOrigin, oldZoom); if picking is set, emit colorPicked
with the current colour. -/
def mousePressEvent (st : ViewerState) (pos : QPoint) : ViewerState × List Signal :=
  ({ st with pressedPoint := some pos, oldOrigin := some st.origin,
             oldZoom := some st.zoom },
   if st.picking.isSome then [Signal.colorPicked st.currentColor] else [])

/-- ReferenceViewer.mouseReleaseEvent: clear pressedPoint and moving only
(picking and currentColor are left untouched). -/
def mouseReleaseEvent (st : ViewerState) : ViewerState :=
  { st with pressedPoint := none, moving := false }

/-- ReferenceViewer.clampZoom: max(self.minimumZoom, value); faults
(AttributeError) when minimumZoom was never assigned. -/
def clampZoom (st : ViewerState) (value : ℚ) : Option ℚ :=
  st.minimumZoom.map (fun m => max m value)

/-- ReferenceViewer.mouseMoveEvent.  Only acts while pressedPoint is set;
Alt samples a colour and marks picking; otherwise Ctrl drag-zooms around
the press-time anchor and plain drag pans. -/
def mouseMoveEvent (pix : QImageData → QPoint → ℤ) (st : ViewerState)
    (pos : QPoint) (alt ctrl : Bool) : Option (ViewerState × List Signal) :=
  match st.pressedPoint with
  | none => some (st, [])
  | some pp =>
    let st1 := { st with moving := true }
    let st2 := if alt then
        { st1 with currentColor := getCurrentColor pix st1 pos, picking := some pos }
      else { st1 with picking := none }
    if st2.moving ∧ st2.picking = none then
      if ctrl then
        match st2.oldZoom, st2.oldOrigin with
        | some oz, some oo =>
          let zoomDelta : ℤ := pp.y - pos.y
          let centerPos := qpDiv (qpSub pp oo) oz
          match clampZoom st2 (oz + ((zoomDelta : ℚ) / 100) * oz) with
          | some z' =>
            let st3 := { st2 with zoom := z', origin := qpSub pp (qpMul centerPos z') }
            some (st3, [resetSlider st3])
          | none => none
        | _, _ => none
      else
        match st2.oldOrigin with
        | some oo => some ({ st2 with origin := qpAdd (qpSub oo pp) pos }, [])
        | none => none
    else
      some (st2, [])

/-- ReferenceViewer.wheelEvent: zoom about the live cursor position. -/
def wheelEvent (st : ViewerState) (pos : QPoint) (dy : ℤ) :
    Option (ViewerState × List Signal) :=
  let centerPos := qpDiv (qpSub pos st.origin) st.zoom
  match clampZoom st (st.zoom + ((dy : ℚ) / 500) * st.zoom) with
  | some z' =>
    let st' := { st with zoom := z', origin := qpSub pos (qpMul centerPos z') }
    some (st', [resetSlider st'])
  | none => none

/-- ReferenceViewer.resizeEvent: the widget size has changed; refit. -/
def resizeEvent (st : ViewerState) (w h : ℤ) : ViewerState × List Signal :=
  resetView { st with viewW := w, viewH := h }

/-- ReferenceViewer.dragEnterEvent: accept iff the payload bears URLs. -/
def dragEnterEvent (urls : List QUrl) : Bool :=
  !urls.isEmpty

/-- ReferenceViewer.dropEvent: reads urls[0] (IndexError on an empty list);
loads the first entry iff it is a local file, ignoring the rest. `decode`
is the external image decoder (None on failure). -/
def dropEvent (decode : String → Option QImageData) (st : ViewerState)
    (urls : List QUrl) : Option (ViewerState × List Signal) :=
  match urls with
  | [] => none
  | u :: _ =>
    if u.isLocal then some (setImage st (decode u.path)) else some (st, [])

/-- ReferenceViewer.changeZoom: programmatic zoom about the viewport center
(QPoint(w,h)/2.0 rounds).  Absolute: fixed floor max(0.25, newZoom);
relative: clampZoom(initialZoom * newZoom), which can fault. -/
def changeZoom (st : ViewerState) (newZoom : ℚ) (absolute emit : Bool) :
    Option (ViewerState × List Signal) :=
  let thisCenter := qpDiv ⟨st.viewW, st.viewH⟩ 2
  let centerPos := qpDiv (qpSub thisCenter st.origin) st.zoom
  match (if absolute then some (max (1/4) newZoom)
         else clampZoom st (st.initialZoom * newZoom)) with
  | some z' =>
    let st' := { st with zoom := z', origin := qpSub thisCenter (qpMul centerPos z') }
    some (st', if emit then [resetSlider st'] else [])
  | none => none

/-- An input event delivered to the viewer widget. -/
inductive Event where
  | press (pos : QPoint)
  | release
  | move (pos : QPoint) (alt ctrl : Bool)
  | wheel (pos : QPoint) (dy : ℤ)
  | resize (w h : ℤ)
  | setImg (img : Option QImageData)
  | drop (urls : List QUrl)
  | czoom (newZoom : ℚ) (absolute emit : Bool)

/-- Dispatch one event to the corresponding handler. -/
def step (decode : String → Option QImageData) (pix : QImageData → QPoint → ℤ)
    (st : ViewerState) : Event → Option (ViewerState × List Signal)
  | Event.press pos => some (mousePressEvent st pos)
  | Event.release => some (mouseReleaseEvent st, [])
  | Event.move pos alt ctrl => mouseMoveEvent pix st pos alt ctrl
  | Event.wheel pos dy => wheelEvent st pos dy
  | Event.resize w h => some (resizeEvent st w h)
  | Event.setImg img => some (setImage st img)
  | Event.drop urls => dropEvent decode st urls
  | Event.czoom nz a e => changeZoom st nz a e

/-- Run a list of events; `none` as soon as a handler faults. -/
def run (decode : String → Option QImageData) (pix : QImageData → QPoint → ℤ)
    (st : ViewerState) : List Event → Option ViewerState
  | [] => some st
  | e :: es =>
    match step decode pix st e with
    | some (st', _) => run decode pix st' es
    | none => none

/-- An event does not load a non-null image: setImage only with a null
image, drops only when the first entry is non-local or fails to decode. -/
def noLoad (decode : String → Option QImageData) : Event → Prop
  | Event.setImg img => img = none
  | Event.drop urls =>
    match urls with
    | [] => True
    | u :: _ => u.isLocal = true → decode u.path = none
  | _ => True

/-- A zoom gesture as the user performs it: a single wheel tick, or a
press-drag(Ctrl)-release drag-zoom from press point pp to cursor cur. -/
inductive Gesture where
  | wheel (pos : QPoint) (dy : ℤ)
  | dragZoom (pp cur : QPoint)

/-- Execute one gesture through the real handlers (the drag-zoom is a
press, a Ctrl-move, and a release). -/
def gestureStep (st : ViewerState) : Gesture → Option ViewerState
  | Gesture.wheel pos dy => (wheelEvent st pos dy).map (fun r => r.1)
  | Gesture.dragZoom pp cur =>
    let st1 := (mousePressEvent st pp).1
    (mouseMoveEvent (fun _ _ => 0) st1 cur false true).map
      (fun r => mouseReleaseEvent r.1)

/-- Run a sequence of zoom gestures. -/
def gestureRun (st : ViewerState) : List Gesture → Option ViewerState
  | [] => some st
  | g :: gs =>
    match gestureStep st g with
    | some st' => gestureRun st' gs
    | none => none

/-- Python math.log: defined only on positive arguments, ValueError
otherwise. -/
noncomputable def mathLog (x : ℝ) : Option ℝ :=
  if 0 < x then some (Real.log x) else none

/-- ReferenceDocker.valueSliderToZoom: math.pow(32/.25, x/10000.0)*.25. -/
noncomputable def valueSliderToZoom (x : ℝ) : ℝ :=
  ((32 : ℝ) / 0.25) ^ (x / 10000) * 0.25

/-- ReferenceDocker.valueZoomToSlider:
(10000.0*math.log(x/.25)) / math.log(32/.25); faults for x <= 0. -/
noncomputable def valueZoomToSlider (x : ℝ) : Option ℝ :=
  (mathLog (x / 0.25)).map (fun l => 10000 * l / Real.log ((32 : ℝ) / 0.25))

/-- QSlider.setValue clamps its argument into the slider range [0, 10000]. -/
def sliderSetValue (v : ℤ) : ℤ := min 10000 (max 0 v)

/-- Python int() on a float, truncation toward zero. -/
noncomputable def pyIntR (x : ℝ) : ℤ := if 0 ≤ x then ⌊x⌋ else ⌈x⌉

/-- The sliderReset wiring in ReferenceDocker.__init__:
zoomSlider.setValue(int(valueZoomToSlider(value))). -/
noncomputable def onSliderReset (ratio : ℝ) : Option ℤ :=
  (valueZoomToSlider ratio).map (fun r => sliderSetValue (pyIntR r))

/-- qRound moves a rational by at most one half. -/
lemma qround_err (q : ℚ) : |(qround q : ℚ) - q| ≤ 1/2 := by
  unfold qround
  split
  · rw [abs_le]
    constructor
    · have h1 := Int.lt_floor_add_one (q + 1/2)
      linarith
    · have h2 := Int.floor_le (q + 1/2)
      linarith
  · rw [abs_le]
    constructor
    · have h1 := Int.le_ceil (q - 1/2)
      linarith
    · have h2 := Int.ceil_lt_add_one (q - 1/2)
      linarith

/-- Dividing a qRound-ed product back by the (positive) factor lands within
1/(2z) of the original value. -/
lemma qround_div_err (c z : ℚ) (hz : 0 < z) :
    |(qround (c * z) : ℚ) / z - c| ≤ 1 / (2 * z) := by
  have h := qround_err (c * z)
  have e : (qround (c * z) : ℚ) / z - c = ((qround (c * z) : ℚ) - c * z) / z := by
    field_simp
    ring
  rw [e, abs_div, abs_of_pos hz]
  calc |(qround (c * z) : ℚ) - c * z| / z ≤ (1/2) / z :=
        (div_le_div_iff_of_pos_right hz).mpr h
    _ = 1 / (2 * z) := by rw [div_div]

/-- Round an image point to integer pixels, scale by a positive zoom,
qRound, and unscale: the result is within 1/2 + 1/(2z) of the original. -/
lemma anchor_err (q z : ℚ) (hz : 0 < z) :
    |(qround ((qround q : ℚ) * z) : ℚ) / z - q| ≤ 1/2 + 1/(2 * z) := by
  have h1 := qround_div_err (qround q : ℚ) z hz
  have h2 := qround_err q
  calc |(qround ((qround q : ℚ) * z) : ℚ) / z - q|
      = |((qround ((qround q : ℚ) * z) : ℚ) / z - (qround q : ℚ))
          + ((qround q : ℚ) - q)| := by ring_nf
    _ ≤ |(qround ((qround q : ℚ) * z) : ℚ) / z - (qround q : ℚ)|
          + |(qround q : ℚ) - q| := abs_add _ _
    _ ≤ 1/(2 * z) + 1/2 := add_le_add h1 h2
    _ = 1/2 + 1/(2 * z) := by ring

/-- Claim C1: a wheel event with an image loaded (so minimumZoom exists)
sets zoom to clampZoom(zoom + (angleDelta.y/500) * zoom) and origin to
pointerPos - centerPos * newZoom with centerPos = (pointerPos - origin)/zoom
taken from the live cursor; the image point under the cursor is preserved
within the rounding tolerance 1/2 + 1/(2 * newZoom) per component, and a
wheel with angleDelta.y = 500 at zoom 1 (minimumZoom at most 2) gives
zoom = 2. -/
theorem C1_wheel_cursor_fixed_zoom (st : ViewerState) (pos : QPoint) (dy : ℤ)
    (m : ℚ) (hm : st.minimumZoom = some m) (hmpos : 0 < m) (hz : 0 < st.zoom) :
    ∃ st',
      wheelEvent st pos dy
        = some (st', [Signal.sliderReset (st'.zoom / st.initialZoom)]) ∧
      st'.zoom = max m (st.zoom + ((dy : ℚ) / 500) * st.zoom) ∧
      st'.origin = qpSub pos (qpMul (qpDiv (qpSub pos st.origin) st.zoom) st'.zoom) ∧
      |((pos.x : ℚ) - (st'.origin.x : ℚ)) / st'.zoom
          - ((pos.x : ℚ) - (st.origin.x : ℚ)) / st.zoom|
        ≤ 1/2 + 1/(2 * st'.zoom) ∧
      |((pos.y : ℚ) - (st'.origin.y : ℚ)) / st'.zoom
          - ((pos.y : ℚ) - (st.origin.y : ℚ)) / st.zoom|
        ≤ 1/2 + 1/(2 * st'.zoom) ∧
      (st.zoom = 1 → dy = 500 → m ≤ 2 → st'.zoom = 2) := by
  obtain ⟨img, z, iz, oz, org, oo, ppt, mv, cc, pk, mz, vw, vh⟩ := st
  dsimp only at hm hz ⊢
  subst hm
  set z' : ℚ := max m (z + ((dy : ℚ) / 500) * z) with hzdef
  have hzp' : 0 < z' := lt_of_lt_of_le hmpos (le_max_left _ _)
  refine ⟨_, rfl, rfl, rfl, ?_, ?_, ?_⟩
  · have h := anchor_err (((pos.x : ℚ) - (org.x : ℚ)) / z) z' hzp'
    dsimp only [qpSub, qpDiv, qpMul]
    push_cast
    convert h using 2
    ring
  · have h := anchor_err (((pos.y : ℚ) - (org.y : ℚ)) / z) z' hzp'
    dsimp only [qpSub, qpDiv, qpMul]
    push_cast
    convert h using 2
    ring
  · intro h1 h500 hm2
    show z' = 2
    rw [hzdef, h1, h500]
    have e : (1 : ℚ) + (((500 : ℤ) : ℚ) / 500) * 1 = 2 := by norm_num
    rw [e]
    exact max_eq_right hm2

/-- A concrete loaded-image viewer state used to witness the wheel claim. -/
def C1wst : ViewerState :=
  { image := some ⟨100, 100⟩, zoom := 1, initialZoom := 1, oldZoom := none,
    origin := ⟨0, 0⟩, oldOrigin := none, pressedPoint := none,
    moving := false, currentColor := none, picking := none,
    minimumZoom := some 1, viewW := 500, viewH := 500 }

/-- Witness for C1: the wheel theorem applied at a concrete state, cursor
position (0,0) and angleDelta.y = 500. -/
theorem C1_wheel_cursor_fixed_zoom_witness :
    ∃ st',
      wheelEvent C1wst ⟨0, 0⟩ 500
        = some (st', [Signal.sliderReset (st'.zoom / C1wst.initialZoom)]) ∧
      st'.zoom = max (1 : ℚ) (C1wst.zoom + (((500 : ℤ) : ℚ) / 500) * C1wst.zoom) ∧
      st'.origin = qpSub ⟨0, 0⟩
        (qpMul (qpDiv (qpSub ⟨0, 0⟩ C1wst.origin) C1wst.zoom) st'.zoom) ∧
      |(((⟨0, 0⟩ : QPoint).x : ℚ) - (st'.origin.x : ℚ)) / st'.zoom
          - (((⟨0, 0⟩ : QPoint).x : ℚ) - (C1wst.origin.x : ℚ)) / C1wst.zoom|
        ≤ 1/2 + 1/(2 * st'.zoom) ∧
      |(((⟨0, 0⟩ : QPoint).y : ℚ) - (st'.origin.y : ℚ)) / st'.zoom
          - (((⟨0, 0⟩ : QPoint).y : ℚ) - (C1wst.origin.y : ℚ)) / C1wst.zoom|
        ≤ 1/2 + 1/(2 * st'.zoom) ∧
      (C1wst.zoom = 1 → (500 : ℤ) = 500 → (1 : ℚ) ≤ 2 → st'.zoom = 2) :=
  C1_wheel_cursor_fixed_zoom C1wst ⟨0, 0⟩ 500 1 rfl (by decide) (by decide)

/-- Claim C6: a pointer move while dragging with neither modifier held pans:
the new origin is anchor.origin - anchor.pointerPos + currentPointerPos and
zoom is unchanged; pressing at (100,100) and dragging to (150,100) shifts
the origin by exactly (+50, 0). -/
theorem C6_pan_rigid_translation (pix : QImageData → QPoint → ℤ)
    (st : ViewerState) (pos pp oo : QPoint)
    (hpp : st.pressedPoint = some pp) (hoo : st.oldOrigin = some oo) :
    ∃ st',
      mouseMoveEvent pix st pos false false = some (st', []) ∧
      st'.origin = qpAdd (qpSub oo pp) pos ∧
      st'.zoom = st.zoom ∧
      (pp = ⟨100, 100⟩ → pos = ⟨150, 100⟩ → st'.origin = qpAdd oo ⟨50, 0⟩) := by
  obtain ⟨img, z, iz, oz, org, oo0, ppt, mv, cc, pk, mz, vw, vh⟩ := st
  dsimp only at hpp hoo ⊢
  subst hpp hoo
  refine ⟨_, rfl, rfl, rfl, ?_⟩
  intro h1 h2
  subst h1 h2
  obtain ⟨ox, oy⟩ := oo
  dsimp only [qpAdd, qpSub]
  simp only [QPoint.mk.injEq]
  omega

/-- A concrete dragging viewer state used to witness the panning claim. -/
def C6wst : ViewerState :=
  { image := some ⟨100, 100⟩, zoom := 1, initialZoom := 1, oldZoom := some 1,
    origin := ⟨0, 0⟩, oldOrigin := some ⟨0, 0⟩,
    pressedPoint := some ⟨100, 100⟩,
    moving := false, currentColor := none, picking := none,
    minimumZoom := some (1/4), viewW := 500, viewH := 500 }

/-- Witness for C6: the panning theorem applied at the scenario input of the
claim (press (100,100), drag to (150,100)). -/
theorem C6_pan_rigid_translation_witness :
    ∃ st',
      mouseMoveEvent (fun _ _ => 0) C6wst ⟨150, 100⟩ false false
        = some (st', []) ∧
      st'.origin = qpAdd (qpSub ⟨0, 0⟩ ⟨100, 100⟩) ⟨150, 100⟩ ∧
      st'.zoom = C6wst.zoom ∧
      ((⟨100, 100⟩ : QPoint) = ⟨100, 100⟩ → (⟨150, 100⟩ : QPoint) = ⟨150, 100⟩ →
        st'.origin = qpAdd ⟨0, 0⟩ ⟨50, 0⟩) :=
  C6_pan_rigid_translation (fun _ _ => 0) C6wst ⟨150, 100⟩ ⟨100, 100⟩ ⟨0, 0⟩ rfl rfl

/-- A concrete dragging state (press at (13,0), anchor origin (0,0), anchor
zoom 1, minimumZoom 0) exhibiting the drag-zoom rounding drift. -/
def C5cst : ViewerState :=
  { image := some ⟨100, 100⟩, zoom := 1, initialZoom := 1, oldZoom := some 1,
    origin := ⟨0, 0⟩, oldOrigin := some ⟨0, 0⟩,
    pressedPoint := some ⟨13, 0⟩,
    moving := false, currentColor := none, picking := none,
    minimumZoom := some 0, viewW := 500, viewH := 500 }

/-- Counterexample to C5 as stated: dragging down 50 pixels from press point
(13,0) takes the zoom from 1 to 1/2, and the image point recovered under the
press-time cursor, (anchor.pointerPos - origin)/zoom, is 14 — not the
anchor centerPos, whose x component is 13.  QPoint multiplication rounds
centerPos * zoom to integers, so the press-time image point is preserved
only within 1/(2*zoom), not exactly. -/
theorem C5_dragzoom_counterexample :
    (mouseMoveEvent (fun _ _ => 0) C5cst ⟨13, 50⟩ false true).map
        (fun r => ((13 : ℚ) - (r.1.origin.x : ℚ)) / r.1.zoom)
      = some 14 ∧
    qpDiv (qpSub ⟨13, 0⟩ ⟨0, 0⟩) 1 = ⟨13, 0⟩ ∧
    (14 : ℚ) ≠ 13 := by
  refine ⟨?_, ?_, by norm_num⟩
  · simp only [mouseMoveEvent, C5cst, clampZoom, getCurrentColor, resetSlider,
      qpDiv, qpSub, qpMul, qround, Option.map]
    norm_num
  · simp only [qpDiv, qpSub, qround]
    norm_num

/-- Undoing a nested integer subtraction under the cast into ℚ. -/
lemma cast_sub_sub (a k : ℤ) : (a : ℚ) - ((a - k : ℤ) : ℚ) = (k : ℚ) := by
  push_cast
  ring

/-- Claim C5 (amended): a pointer move with the zoom-modifier held and the
pick-modifier not held sets zoom to clampZoom(anchor.zoom +
((anchor.pointerPos.y - pos.y)/100) * anchor.zoom) and origin to
anchor.pointerPos - centerPos * newZoom with centerPos =
(anchor.pointerPos - anchor.origin) / anchor.zoom (integer QPoint
arithmetic), independently of the live cursor x and also when clamped; the
image point that was under the cursor at press time stays fixed at the
press-time cursor location within the rounding tolerance 1/(2 * newZoom)
per component (not exactly, because centerPos * newZoom rounds). -/
theorem C5_dragzoom_anchor (pix : QImageData → QPoint → ℤ) (st : ViewerState)
    (pos pp oo : QPoint) (oz m : ℚ)
    (hpp : st.pressedPoint = some pp) (hoo : st.oldOrigin = some oo)
    (hoz : st.oldZoom = some oz) (hm : st.minimumZoom = some m)
    (hmpos : 0 < m) :
    ∃ st',
      mouseMoveEvent pix st pos false true
        = some (st', [Signal.sliderReset (st'.zoom / st.initialZoom)]) ∧
      st'.zoom = max m (oz + (((pp.y - pos.y : ℤ) : ℚ) / 100) * oz) ∧
      st'.origin = qpSub pp (qpMul (qpDiv (qpSub pp oo) oz) st'.zoom) ∧
      |((pp.x : ℚ) - (st'.origin.x : ℚ)) / st'.zoom
          - ((qpDiv (qpSub pp oo) oz).x : ℚ)| ≤ 1/(2 * st'.zoom) ∧
      |((pp.y : ℚ) - (st'.origin.y : ℚ)) / st'.zoom
          - ((qpDiv (qpSub pp oo) oz).y : ℚ)| ≤ 1/(2 * st'.zoom) := by
  obtain ⟨img, z, iz, oz0, org, oo0, ppt, mv, cc, pk, mz, vw, vh⟩ := st
  dsimp only at hpp hoo hoz hm ⊢
  subst hpp hoo hoz hm
  set z' : ℚ := max m (oz + (((pp.y - pos.y : ℤ) : ℚ) / 100) * oz) with hzdef
  have hzp' : 0 < z' := lt_of_lt_of_le hmpos (le_max_left _ _)
  refine ⟨_, rfl, rfl, rfl, ?_, ?_⟩
  · dsimp only [qpSub, qpDiv, qpMul]
    rw [cast_sub_sub]
    exact qround_div_err ((qround (((pp.x - oo.x : ℤ) : ℚ) / oz) : ℚ)) z' hzp'
  · dsimp only [qpSub, qpDiv, qpMul]
    rw [cast_sub_sub]
    exact qround_div_err ((qround (((pp.y - oo.y : ℤ) : ℚ) / oz) : ℚ)) z' hzp'

/-- A concrete dragging state used to witness the amended drag-zoom claim. -/
def C5wst : ViewerState :=
  { image := some ⟨100, 100⟩, zoom := 1, initialZoom := 1, oldZoom := some 1,
    origin := ⟨0, 0⟩, oldOrigin := some ⟨0, 0⟩,
    pressedPoint := some ⟨100, 100⟩,
    moving := false, currentColor := none, picking := none,
    minimumZoom := some 1, viewW := 500, viewH := 500 }

/-- Witness for the amended C5 at a concrete dragging state. -/
theorem C5_dragzoom_anchor_witness :
    ∃ st',
      mouseMoveEvent (fun _ _ => 0) C5wst ⟨100, 160⟩ false true
        = some (st', [Signal.sliderReset (st'.zoom / C5wst.initialZoom)]) ∧
      st'.zoom = max (1 : ℚ)
        (1 + ((((⟨100, 100⟩ : QPoint).y - (⟨100, 160⟩ : QPoint).y : ℤ) : ℚ) / 100) * 1) ∧
      st'.origin = qpSub ⟨100, 100⟩
        (qpMul (qpDiv (qpSub ⟨100, 100⟩ ⟨0, 0⟩) 1) st'.zoom) ∧
      |(((⟨100, 100⟩ : QPoint).x : ℚ) - (st'.origin.x : ℚ)) / st'.zoom
          - ((qpDiv (qpSub ⟨100, 100⟩ ⟨0, 0⟩) 1).x : ℚ)| ≤ 1/(2 * st'.zoom) ∧
      |(((⟨100, 100⟩ : QPoint).y : ℚ) - (st'.origin.y : ℚ)) / st'.zoom
          - ((qpDiv (qpSub ⟨100, 100⟩ ⟨0, 0⟩) 1).y : ℚ)| ≤ 1/(2 * st'.zoom) :=
  C5_dragzoom_anchor (fun _ _ => 0) C5wst ⟨100, 160⟩ ⟨100, 100⟩ ⟨0, 0⟩ 1 1
    rfl rfl rfl rfl (by decide)

/-- Claim C3: for a non-null image and positive viewport, resetView sets
initialZoom = min(viewW/imgW, viewH/imgH), minimumZoom = initialZoom * 0.25,
zoom = initialZoom, centers the image (origin = (viewportSize -
imageSize*zoom)/2 componentwise, with the Qt QSize product rounding and the
Python int() truncating), and emits sliderReset(zoom/initialZoom) = 1.0;
the 1000x500 image in a 500x500 viewport gives initialZoom = 1/2 and
origin = (0, 125), and resetView is idempotent on zoom, origin and
initialZoom. -/
theorem C3_resetView_fit_center (st : ViewerState) (w h : ℤ)
    (himg : st.image = some ⟨w, h⟩) (hw : 0 < w) (hh : 0 < h)
    (hvw : 0 < st.viewW) (hvh : 0 < st.viewH) :
    ∃ st',
      resetView st = (st', [Signal.sliderReset (st'.zoom / st'.initialZoom)]) ∧
      st'.zoom / st'.initialZoom = 1 ∧
      st'.initialZoom = min ((st.viewW : ℚ) / w) ((st.viewH : ℚ) / h) ∧
      st'.minimumZoom = some (st'.initialZoom * (1/4)) ∧
      st'.zoom = st'.initialZoom ∧
      st'.origin = ⟨pyInt (((st.viewW - qround ((w : ℚ) * st'.zoom) : ℤ) : ℚ) / 2),
                    pyInt (((st.viewH - qround ((h : ℚ) * st'.zoom) : ℤ) : ℚ) / 2)⟩ ∧
      (resetView st').1.zoom = st'.zoom ∧
      (resetView st').1.origin = st'.origin ∧
      (resetView st').1.initialZoom = st'.initialZoom ∧
      (st.viewW = 500 → st.viewH = 500 → w = 1000 → h = 500 →
        st'.initialZoom = 1/2 ∧ st'.origin = ⟨0, 125⟩) := by
  obtain ⟨img, z, iz0, oz, org, oo, ppt, mv, cc, pk, mz, vw, vh⟩ := st
  dsimp only at himg hvw hvh ⊢
  subst himg
  have hizpos : 0 < min ((vw : ℚ) / w) ((vh : ℚ) / h) := by
    apply lt_min
    · exact div_pos (by exact_mod_cast hvw) (by exact_mod_cast hw)
    · exact div_pos (by exact_mod_cast hvh) (by exact_mod_cast hh)
  refine ⟨_, rfl, div_self (ne_of_gt hizpos), rfl, rfl, rfl, rfl, rfl, rfl, rfl, ?_⟩
  intro e1 e2 e3 e4
  subst e1 e2 e3 e4
  have eiz : min (((500 : ℤ) : ℚ) / ((1000 : ℤ) : ℚ)) (((500 : ℤ) : ℚ) / ((500 : ℤ) : ℚ))
      = 1/2 := by
    norm_num [min_def]
  constructor
  · exact eiz
  · simp only [eiz, QPoint.mk.injEq, pyInt, qround]
    norm_num

/-- A freshly constructed viewer holding a 1000x500 image in a 500x500
viewport, the scenario state of the reset claim. -/
def C3wst : ViewerState :=
  { image := some ⟨1000, 500⟩, zoom := 1, initialZoom := 1, oldZoom := none,
    origin := ⟨0, 0⟩, oldOrigin := none, pressedPoint := none,
    moving := false, currentColor := none, picking := none,
    minimumZoom := none, viewW := 500, viewH := 500 }

/-- Witness for C3 at the 1000x500-in-500x500 scenario. -/
theorem C3_resetView_fit_center_witness :
    ∃ st',
      resetView C3wst = (st', [Signal.sliderReset (st'.zoom / st'.initialZoom)]) ∧
      st'.zoom / st'.initialZoom = 1 ∧
      st'.initialZoom = min ((C3wst.viewW : ℚ) / 1000) ((C3wst.viewH : ℚ) / 500) ∧
      st'.minimumZoom = some (st'.initialZoom * (1/4)) ∧
      st'.zoom = st'.initialZoom ∧
      st'.origin = ⟨pyInt (((C3wst.viewW - qround ((1000 : ℚ) * st'.zoom) : ℤ) : ℚ) / 2),
                    pyInt (((C3wst.viewH - qround ((500 : ℚ) * st'.zoom) : ℤ) : ℚ) / 2)⟩ ∧
      (resetView st').1.zoom = st'.zoom ∧
      (resetView st').1.origin = st'.origin ∧
      (resetView st').1.initialZoom = st'.initialZoom ∧
      (C3wst.viewW = 500 → C3wst.viewH = 500 → (1000 : ℤ) = 1000 → (500 : ℤ) = 500 →
        st'.initialZoom = 1/2 ∧ st'.origin = ⟨0, 125⟩) :=
  C3_resetView_fit_center C3wst 1000 500 rfl (by decide) (by decide)
    (by decide) (by decide)

/-- The gesture-zoom floor invariant: zoom is at or above minimumZoom
whenever the latter exists. -/
def zoomFloorInv (st : ViewerState) : Prop :=
  ∀ m, st.minimumZoom = some m → m ≤ st.zoom

/-- One successful zoom gesture (wheel tick or drag-zoom) always leaves the
zoom clamped at or above minimumZoom. -/
lemma gestureStep_floor (st st' : ViewerState) (g : Gesture)
    (hstep : gestureStep st g = some st') : zoomFloorInv st' := by
  obtain ⟨img, z, iz, oz, org, oo, ppt, mv, cc, pk, mz, vw, vh⟩ := st
  cases g with
  | wheel pos dy =>
    cases mz with
    | none => simp [gestureStep, wheelEvent, clampZoom] at hstep
    | some m =>
      simp only [gestureStep, wheelEvent, clampZoom, Option.map_some'] at hstep
      rw [Option.some.injEq] at hstep
      subst hstep
      intro m' hm'
      obtain rfl := Option.some.inj hm'
      exact le_max_left _ _
  | dragZoom pp cur =>
    cases mz with
    | none =>
      simp [gestureStep, mousePressEvent, mouseMoveEvent, clampZoom,
        getCurrentColor, mouseReleaseEvent] at hstep
    | some m =>
      simp [gestureStep, mousePressEvent, mouseMoveEvent, clampZoom,
        getCurrentColor, mouseReleaseEvent] at hstep
      subst hstep
      intro m' hm'
      obtain rfl := Option.some.inj hm'
      exact le_max_left _ _

/-- Running any list of zoom gestures preserves the zoom floor. -/
lemma gestureRun_floor (gs : List Gesture) (st st' : ViewerState)
    (hrun : gestureRun st gs = some st') (hinv : zoomFloorInv st) :
    zoomFloorInv st' := by
  induction gs generalizing st with
  | nil =>
    simp only [gestureRun, Option.some.injEq] at hrun
    subst hrun
    exact hinv
  | cons g gs ih =>
    unfold gestureRun at hrun
    cases hs : gestureStep st g with
    | none => rw [hs] at hrun; exact absurd hrun (by simp)
    | some st1 =>
      rw [hs] at hrun
      exact ih st1 hrun (gestureStep_floor st st1 g hs)

/-- Claim C2: (1) right after a non-null resetView the zoom floor invariant
holds; (2) every sequence of wheel / drag-zoom gestures preserves it, since
clampZoom = max(minimumZoom, value) is applied to every gesture zoom; and
(3) changeZoom with absolute = true always yields zoom = max(0.25, newZoom),
a second fixed floor of 0.25 independent of minimumZoom. -/
theorem C2_zoom_floor_asymmetric :
    (∀ st w h, st.image = some ⟨w, h⟩ → 0 < w → 0 < h →
      0 ≤ st.viewW → 0 ≤ st.viewH →
      ∀ m, (resetView st).1.minimumZoom = some m → m ≤ (resetView st).1.zoom) ∧
    (∀ st gs st', zoomFloorInv st → gestureRun st gs = some st' →
      zoomFloorInv st') ∧
    (∀ st nz emit,
      (changeZoom st nz true emit).map (fun r => r.1.zoom)
          = some (max (1/4) nz) ∧
      (1/4 : ℚ) ≤ max (1/4 : ℚ) nz) := by
  refine ⟨?_, ?_, ?_⟩
  · intro st w h himg hw hh hvw hvh m hm
    obtain ⟨img, z, iz0, oz, org, oo, ppt, mv, cc, pk, mz, vw, vh⟩ := st
    dsimp only at himg hvw hvh
    subst himg
    dsimp only [resetView] at hm ⊢
    obtain rfl := Option.some.inj hm
    have hiz : (0:ℚ) ≤ min ((vw : ℚ) / w) ((vh : ℚ) / h) := by
      apply le_min
      · exact div_nonneg (by exact_mod_cast hvw) (by exact_mod_cast le_of_lt hw)
      · exact div_nonneg (by exact_mod_cast hvh) (by exact_mod_cast le_of_lt hh)
    linarith
  · exact fun st gs st' hinv hrun => gestureRun_floor gs st st' hrun hinv
  · intro st nz emit
    exact ⟨rfl, le_max_left _ _⟩

/-- A freshly loaded 1000x500 image in a 500x500 viewport for the C2
witness. -/
def C2rst : ViewerState :=
  { image := some ⟨1000, 500⟩, zoom := 1, initialZoom := 1, oldZoom := none,
    origin := ⟨0, 0⟩, oldOrigin := none, pressedPoint := none,
    moving := false, currentColor := none, picking := none,
    minimumZoom := none, viewW := 500, viewH := 500 }

/-- A loaded viewer state with zoom 1 and minimumZoom 1 for the C2
witness. -/
def C2gst : ViewerState :=
  { image := some ⟨100, 100⟩, zoom := 1, initialZoom := 1, oldZoom := none,
    origin := ⟨0, 0⟩, oldOrigin := none, pressedPoint := none,
    moving := false, currentColor := none, picking := none,
    minimumZoom := some 1, viewW := 500, viewH := 500 }

/-- Witness for C2: the floor theorem applied at concrete states, the empty
gesture sequence, and an absolute changeZoom to 3. -/
theorem C2_zoom_floor_asymmetric_witness :
    (min (((500:ℤ):ℚ) / ((1000:ℤ):ℚ)) (((500:ℤ):ℚ) / ((500:ℤ):ℚ)) * (1/4)
        ≤ (resetView C2rst).1.zoom) ∧
    ((1:ℚ) ≤ C2gst.zoom) ∧
    ((changeZoom C2gst 3 true false).map (fun r => r.1.zoom)
        = some (max (1/4) 3) ∧
      (1/4 : ℚ) ≤ max (1/4 : ℚ) 3) := by
  refine ⟨?_, ?_, ?_⟩
  · exact C2_zoom_floor_asymmetric.1 C2rst 1000 500 rfl (by decide) (by decide)
      (by decide) (by decide) _ rfl
  · refine C2_zoom_floor_asymmetric.2.1 C2gst [] C2gst ?_ rfl 1 rfl
    intro m hm
    obtain rfl := Option.some.inj hm
    exact le_refl 1
  · exact C2_zoom_floor_asymmetric.2.2 C2gst 3 false

/-- The state after press(100,100), Alt-move(110,100), release on a fresh
viewer: the release left picking set. -/
def C8cst : ViewerState :=
  { image := none, zoom := 1, initialZoom := 1, oldZoom := some 1,
    origin := ⟨0, 0⟩, oldOrigin := some ⟨0, 0⟩, pressedPoint := none,
    moving := false, currentColor := none, picking := some ⟨110, 100⟩,
    minimumZoom := none, viewW := 256, viewH := 256 }

/-- Counterexample to C8 as stated: after a picking drag ends with a pointer
release, picking is still set (mouseReleaseEvent clears only pressedPoint
and moving), and the next pointer press does treat the controller as still
in Picking mode, emitting colorPicked with the stale colour. -/
theorem C8_picking_counterexample :
    run (fun _ => none) (fun _ _ => 0) (initState 256 256)
        [Event.press ⟨100, 100⟩, Event.move ⟨110, 100⟩ true false,
         Event.release]
      = some C8cst ∧
    C8cst.picking = some ⟨110, 100⟩ ∧
    (mousePressEvent C8cst ⟨50, 50⟩).2 = [Signal.colorPicked none] :=
  ⟨rfl, rfl, rfl⟩

/-- Claim C8 (amended): picking and currentColor are set by an Alt-move
while dragging (with no origin/zoom change) and picking is cleared only by
a later non-Alt move while dragging; pointer release leaves both untouched
and currentColor is never cleared by a move, so a press while picking is
set — including right after a picking drag ended — emits colorPicked with
the stored colour, and a press with picking unset emits nothing. -/
theorem C8_picking_lifecycle (pix : QImageData → QPoint → ℤ)
    (st : ViewerState) (pos : QPoint) :
    (∀ pp ctrl, st.pressedPoint = some pp →
      ∃ st', mouseMoveEvent pix st pos true ctrl = some (st', []) ∧
        st'.picking = some pos ∧
        st'.currentColor = getCurrentColor pix st pos ∧
        st'.zoom = st.zoom ∧ st'.origin = st.origin) ∧
    (∀ pp ctrl st' sigs, st.pressedPoint = some pp →
      mouseMoveEvent pix st pos false ctrl = some (st', sigs) →
      st'.picking = none ∧ st'.currentColor = st.currentColor) ∧
    ((mouseReleaseEvent st).picking = st.picking ∧
      (mouseReleaseEvent st).currentColor = st.currentColor) ∧
    (st.picking.isSome = true →
      (mousePressEvent st pos).2 = [Signal.colorPicked st.currentColor]) ∧
    (st.picking = none → (mousePressEvent st pos).2 = []) := by
  obtain ⟨img, z, iz, oz, org, oo, ppt, mv, cc, pk, mz, vw, vh⟩ := st
  refine ⟨?_, ?_, ⟨rfl, rfl⟩, ?_, ?_⟩
  · intro pp ctrl hpp
    dsimp only at hpp
    subst hpp
    exact ⟨_, rfl, rfl, rfl, rfl, rfl⟩
  · intro pp ctrl st' sigs hpp hmove
    dsimp only at hpp
    subst hpp
    cases ctrl with
    | false =>
      cases oo with
      | none => simp [mouseMoveEvent] at hmove
      | some o =>
        simp [mouseMoveEvent] at hmove
        obtain ⟨rfl, rfl⟩ := hmove
        exact ⟨rfl, rfl⟩
    | true =>
      cases oz with
      | none => simp [mouseMoveEvent, clampZoom] at hmove
      | some ozv =>
        cases oo with
        | none => simp [mouseMoveEvent, clampZoom] at hmove
        | some oov =>
          cases mz with
          | none => simp [mouseMoveEvent, clampZoom] at hmove
          | some mzv =>
            simp [mouseMoveEvent, clampZoom] at hmove
            obtain ⟨rfl, rfl⟩ := hmove
            exact ⟨rfl, rfl⟩
  · intro hps
    dsimp only at hps
    simp [mousePressEvent, hps]
  · intro hpn
    dsimp only at hpn
    simp [mousePressEvent, hpn]

/-- A dragging viewer state with a stored pick for the C8 witness. -/
def C8wst : ViewerState :=
  { image := none, zoom := 1, initialZoom := 1, oldZoom := some 1,
    origin := ⟨0, 0⟩, oldOrigin := some ⟨0, 0⟩, pressedPoint := some ⟨0, 0⟩,
    moving := false, currentColor := some 7, picking := some ⟨5, 5⟩,
    minimumZoom := some 1, viewW := 256, viewH := 256 }

/-- The state produced by a plain (no-modifier) move of C8wst to (9,9). -/
def C8wstMoved : ViewerState :=
  { image := none, zoom := 1, initialZoom := 1, oldZoom := some 1,
    origin := ⟨9, 9⟩, oldOrigin := some ⟨0, 0⟩, pressedPoint := some ⟨0, 0⟩,
    moving := true, currentColor := some 7, picking := none,
    minimumZoom := some 1, viewW := 256, viewH := 256 }

/-- Witness for the amended C8 at a concrete dragging state. -/
theorem C8_picking_lifecycle_witness :
    (∃ st', mouseMoveEvent (fun _ _ => 0) C8wst ⟨9, 9⟩ true false
        = some (st', []) ∧
      st'.picking = some ⟨9, 9⟩ ∧
      st'.currentColor = getCurrentColor (fun _ _ => 0) C8wst ⟨9, 9⟩ ∧
      st'.zoom = C8wst.zoom ∧ st'.origin = C8wst.origin) ∧
    (C8wstMoved.picking = none ∧ C8wstMoved.currentColor = C8wst.currentColor) ∧
    ((mouseReleaseEvent C8wst).picking = C8wst.picking ∧
      (mouseReleaseEvent C8wst).currentColor = C8wst.currentColor) ∧
    ((mousePressEvent C8wst ⟨9, 9⟩).2 = [Signal.colorPicked C8wst.currentColor]) :=
  ⟨(C8_picking_lifecycle (fun _ _ => 0) C8wst ⟨9, 9⟩).1 ⟨0, 0⟩ false rfl,
   (C8_picking_lifecycle (fun _ _ => 0) C8wst ⟨9, 9⟩).2.1 ⟨0, 0⟩ false
     C8wstMoved [] rfl rfl,
   (C8_picking_lifecycle (fun _ _ => 0) C8wst ⟨9, 9⟩).2.2.1,
   (C8_picking_lifecycle (fun _ _ => 0) C8wst ⟨9, 9⟩).2.2.2.1 rfl⟩

/-- The decoder used in the drop counterexample and witness: every path
decodes to a 100x100 image. -/
def C9dec : String → Option QImageData := fun _ => some ⟨100, 100⟩

/-- Counterexample to C9 as stated: a multi-item payload whose first entry
is a local file is NOT ignored — the drop loads the first entry and the
state changes (the image goes from none to the decoded image). -/
theorem C9_drop_counterexample :
    (dropEvent C9dec (initState 500 500)
        [⟨true, "a.png"⟩, ⟨true, "b.png"⟩]).map (fun r => r.1.image)
      = some (some ⟨100, 100⟩) ∧
    (initState 500 500).image = none ∧
    (some (⟨100, 100⟩ : QImageData) ≠ (none : Option QImageData)) :=
  ⟨rfl, rfl, by simp⟩

/-- Claim C9 (amended): the drag is accepted exactly for URL-bearing
payloads; a drop with an empty URL list faults (urls[0] is an IndexError);
a drop whose FIRST entry is non-local is ignored with no state change,
even if later entries are local; a drop whose first entry is local loads
that entry via setImage regardless of how many entries follow — only the
first entry of the payload is ever examined or used. -/
theorem C9_drop_first_url_only (decode : String → Option QImageData)
    (st : ViewerState) (u : QUrl) (rest : List QUrl) :
    (dragEnterEvent [] = false ∧ ∀ v vs, dragEnterEvent (v :: vs) = true) ∧
    (dropEvent decode st [] = none) ∧
    (u.isLocal = false → dropEvent decode st (u :: rest) = some (st, [])) ∧
    (u.isLocal = true →
      dropEvent decode st (u :: rest) = some (setImage st (decode u.path))) ∧
    (∀ rest', dropEvent decode st (u :: rest) = dropEvent decode st (u :: rest')) := by
  refine ⟨⟨rfl, fun v vs => rfl⟩, rfl, ?_, ?_, fun rest' => rfl⟩
  · intro h
    simp [dropEvent, h]
  · intro h
    simp [dropEvent, h]

/-- Witness for the amended C9 on concrete payloads. -/
theorem C9_drop_first_url_only_witness :
    dragEnterEvent [⟨true, "a.png"⟩] = true ∧
    dropEvent C9dec (initState 300 300) [] = none ∧
    dropEvent C9dec (initState 300 300) [⟨false, "remote"⟩]
      = some (initState 300 300, []) ∧
    dropEvent C9dec (initState 300 300) [⟨true, "a.png"⟩]
      = some (setImage (initState 300 300) (C9dec "a.png")) ∧
    dropEvent C9dec (initState 300 300) [⟨true, "a.png"⟩, ⟨true, "b.png"⟩]
      = dropEvent C9dec (initState 300 300) [⟨true, "a.png"⟩] :=
  ⟨(C9_drop_first_url_only C9dec (initState 300 300) ⟨true, "a.png"⟩ []).1.2
      ⟨true, "a.png"⟩ [],
   (C9_drop_first_url_only C9dec (initState 300 300) ⟨true, "a.png"⟩ []).2.1,
   (C9_drop_first_url_only C9dec (initState 300 300) ⟨false, "remote"⟩ []).2.2.1 rfl,
   (C9_drop_first_url_only C9dec (initState 300 300) ⟨true, "a.png"⟩ []).2.2.2.1 rfl,
   (C9_drop_first_url_only C9dec (initState 300 300) ⟨true, "a.png"⟩
      [⟨true, "b.png"⟩]).2.2.2.2 []⟩

/-- No non-null image has ever been installed: image and minimumZoom are
both absent. -/
def nullInv (st : ViewerState) : Prop :=
  st.image = none ∧ st.minimumZoom = none

/-- A single event that does not load a non-null image preserves nullInv
(or faults). -/
lemma step_nullInv (decode : String → Option QImageData)
    (pix : QImageData → QPoint → ℤ) (st st' : ViewerState)
    (sigs : List Signal) (e : Event) (hnl : noLoad decode e)
    (hinv : nullInv st) (hstep : step decode pix st e = some (st', sigs)) :
    nullInv st' := by
  obtain ⟨himg, hmz⟩ := hinv
  obtain ⟨img, z, iz, oz, org, oo, ppt, mv, cc, pk, mz, vw, vh⟩ := st
  dsimp only at himg hmz
  subst himg hmz
  cases e with
  | press pos =>
    simp [step, mousePressEvent] at hstep
    obtain ⟨rfl, rfl⟩ := hstep
    exact ⟨rfl, rfl⟩
  | release =>
    simp [step, mouseReleaseEvent] at hstep
    obtain ⟨rfl, rfl⟩ := hstep
    exact ⟨rfl, rfl⟩
  | move pos alt ctrl =>
    cases ppt with
    | none =>
      simp [step, mouseMoveEvent] at hstep
      obtain ⟨rfl, rfl⟩ := hstep
      exact ⟨rfl, rfl⟩
    | some pp =>
      cases alt with
      | true =>
        simp [step, mouseMoveEvent, getCurrentColor] at hstep
        obtain ⟨rfl, rfl⟩ := hstep
        exact ⟨rfl, rfl⟩
      | false =>
        cases ctrl with
        | true =>
          cases oz with
          | none => simp [step, mouseMoveEvent, clampZoom] at hstep
          | some ozv =>
            cases oo with
            | none => simp [step, mouseMoveEvent, clampZoom] at hstep
            | some oov => simp [step, mouseMoveEvent, clampZoom] at hstep
        | false =>
          cases oo with
          | none => simp [step, mouseMoveEvent] at hstep
          | some oov =>
            simp [step, mouseMoveEvent] at hstep
            obtain ⟨rfl, rfl⟩ := hstep
            exact ⟨rfl, rfl⟩
  | wheel pos dy => simp [step, wheelEvent, clampZoom] at hstep
  | resize w h =>
    simp [step, resizeEvent, resetView] at hstep
    obtain ⟨rfl, rfl⟩ := hstep
    exact ⟨rfl, rfl⟩
  | setImg img2 =>
    dsimp only [noLoad] at hnl
    subst hnl
    simp [step, setImage, resetView] at hstep
    obtain ⟨rfl, rfl⟩ := hstep
    exact ⟨rfl, rfl⟩
  | drop urls =>
    cases urls with
    | nil => simp [step, dropEvent] at hstep
    | cons u rest =>
      dsimp only [noLoad] at hnl
      cases hu : u.isLocal with
      | false =>
        simp [step, dropEvent, hu] at hstep
        obtain ⟨rfl, rfl⟩ := hstep
        exact ⟨rfl, rfl⟩
      | true =>
        have hd := hnl hu
        simp [step, dropEvent, hu, hd, setImage, resetView] at hstep
        obtain ⟨rfl, rfl⟩ := hstep
        exact ⟨rfl, rfl⟩
  | czoom nz a em =>
    cases a with
    | true =>
      simp [step, changeZoom] at hstep
      obtain ⟨rfl, rfl⟩ := hstep
      exact ⟨rfl, rfl⟩
    | false => simp [step, changeZoom, clampZoom] at hstep

/-- Running events that never load a non-null image keeps image and
minimumZoom absent. -/
lemma run_nullInv (decode : String → Option QImageData)
    (pix : QImageData → QPoint → ℤ) (evs : List Event) :
    ∀ st st', nullInv st → (∀ e ∈ evs, noLoad decode e) →
      run decode pix st evs = some st' → nullInv st' := by
  induction evs with
  | nil =>
    intro st st' hinv _ hrun
    simp only [run, Option.some.injEq] at hrun
    subst hrun
    exact hinv
  | cons e es ih =>
    intro st st' hinv hnl hrun
    unfold run at hrun
    cases hs : step decode pix st e with
    | none => rw [hs] at hrun; exact absurd hrun (by simp)
    | some r =>
      rw [hs] at hrun
      exact ih r.1 st'
        (step_nullInv decode pix st r.1 r.2 e (hnl e (List.mem_cons_self e es))
          hinv hs)
        (fun e2 he2 => hnl e2 (List.mem_cons_of_mem e he2)) hrun

/-- Claim C10: minimumZoom is not assigned at construction and only comes
into existence in resetView's non-null-image branch; in every run from a
fresh viewer in which no non-null image is ever loaded, image and
minimumZoom stay absent, and in such a state every operation that calls
clampZoom — a wheel event, a zoom-modifier drag move, or a relative
changeZoom — faults with an AttributeError (modelled as none) instead of
clamping. -/
theorem C10_clampZoom_requires_loaded_image (w h : ℤ)
    (decode : String → Option QImageData) (pix : QImageData → QPoint → ℤ) :
    ((initState w h).minimumZoom = none ∧ (initState w h).image = none) ∧
    (∀ evs st', (∀ e ∈ evs, noLoad decode e) →
      run decode pix (initState w h) evs = some st' →
      st'.minimumZoom = none ∧ st'.image = none) ∧
    (∀ st v, st.minimumZoom = none → clampZoom st v = none) ∧
    (∀ st pos dy, st.minimumZoom = none → wheelEvent st pos dy = none) ∧
    (∀ st pos pp, st.minimumZoom = none → st.pressedPoint = some pp →
      mouseMoveEvent pix st pos false true = none) ∧
    (∀ st nz emit, st.minimumZoom = none → changeZoom st nz false emit = none) := by
  refine ⟨⟨rfl, rfl⟩, ?_, ?_, ?_, ?_, ?_⟩
  · intro evs st' hnl hrun
    have h := run_nullInv decode pix evs (initState w h) st' ⟨rfl, rfl⟩ hnl hrun
    exact ⟨h.2, h.1⟩
  · intro st v hmz
    simp [clampZoom, hmz]
  · intro st pos dy hmz
    simp [wheelEvent, clampZoom, hmz]
  · intro st pos pp hmz hpp
    obtain ⟨img, z, iz, oz, org, oo, ppt, mv, cc, pk, mz, vw, vh⟩ := st
    dsimp only at hmz hpp
    subst hmz hpp
    cases oz with
    | none => simp [mouseMoveEvent, clampZoom]
    | some ozv =>
      cases oo with
      | none => simp [mouseMoveEvent, clampZoom]
      | some oov => simp [mouseMoveEvent, clampZoom]
  · intro st nz emit hmz
    simp [changeZoom, clampZoom, hmz]

/-- The state of a fresh 256x256 viewer after a press at (1,2) and a
release: still no image and no minimumZoom. -/
def C10wst : ViewerState :=
  { image := none, zoom := 1, initialZoom := 1, oldZoom := some 1,
    origin := ⟨0, 0⟩, oldOrigin := some ⟨0, 0⟩, pressedPoint := none,
    moving := false, currentColor := none, picking := none,
    minimumZoom := none, viewW := 256, viewH := 256 }

/-- A fresh 256x256 viewer mid-drag (pressed at (1,2)), still imageless. -/
def C10pst : ViewerState :=
  { image := none, zoom := 1, initialZoom := 1, oldZoom := some 1,
    origin := ⟨0, 0⟩, oldOrigin := some ⟨0, 0⟩, pressedPoint := some ⟨1, 2⟩,
    moving := false, currentColor := none, picking := none,
    minimumZoom := none, viewW := 256, viewH := 256 }

/-- Witness for C10: a concrete imageless run after which wheel, Ctrl-drag
move and relative changeZoom all fault. -/
theorem C10_clampZoom_requires_loaded_image_witness :
    ((initState 256 256).minimumZoom = none ∧ (initState 256 256).image = none) ∧
    (C10wst.minimumZoom = none ∧ C10wst.image = none) ∧
    clampZoom (initState 256 256) 2 = none ∧
    wheelEvent (initState 256 256) ⟨0, 0⟩ 120 = none ∧
    mouseMoveEvent (fun _ _ => 0) C10pst ⟨3, 4⟩ false true = none ∧
    changeZoom (initState 256 256) 2 false true = none := by
  refine ⟨?_, ?_, ?_, ?_, ?_, ?_⟩
  · exact (C10_clampZoom_requires_loaded_image 256 256 (fun _ => none)
      (fun _ _ => 0)).1
  · exact (C10_clampZoom_requires_loaded_image 256 256 (fun _ => none)
      (fun _ _ => 0)).2.1 [Event.press ⟨1, 2⟩, Event.release] C10wst
      (by intro e he; simp [noLoad] at he ⊢; rcases he with rfl | rfl <;> trivial)
      rfl
  · exact (C10_clampZoom_requires_loaded_image 256 256 (fun _ => none)
      (fun _ _ => 0)).2.2.1 (initState 256 256) 2 rfl
  · exact (C10_clampZoom_requires_loaded_image 256 256 (fun _ => none)
      (fun _ _ => 0)).2.2.2.1 (initState 256 256) ⟨0, 0⟩ 120 rfl
  · exact (C10_clampZoom_requires_loaded_image 256 256 (fun _ => none)
      (fun _ _ => 0)).2.2.2.2.1 C10pst ⟨3, 4⟩ ⟨1, 2⟩ rfl rfl
  · exact (C10_clampZoom_requires_loaded_image 256 256 (fun _ => none)
      (fun _ _ => 0)).2.2.2.2.2 (initState 256 256) 2 true rfl

/-- Claim C4: valueSliderToZoom(s) = 0.25 * (32/0.25)^(s/10000) and
valueZoomToSlider(z) = 10000 * ln(z/0.25) / ln(32/0.25) are exact inverses
over the slider domain: for every integer slider value s up to 10000,
rounding valueZoomToSlider(valueSliderToZoom(s)) recovers s (here the
composition is exactly s), and valueSliderToZoom(0) = 0.25,
valueSliderToZoom(10000) = 32. -/
theorem C4_slider_zoom_inverse (s : ℕ) (hs : s ≤ 10000) :
    (valueZoomToSlider (valueSliderToZoom ((s : ℕ) : ℝ))).map round
        = some ((s : ℕ) : ℤ) ∧
    valueSliderToZoom 0 = 0.25 ∧
    valueSliderToZoom 10000 = 32 := by
  have hb : (1 : ℝ) < 32 / 0.25 := by norm_num
  have hb0 : (0 : ℝ) < 32 / 0.25 := by norm_num
  have hlog : Real.log (32 / 0.25) ≠ 0 := ne_of_gt (Real.log_pos hb)
  refine ⟨?_, ?_, ?_⟩
  · have hpos : (0 : ℝ) < ((32 : ℝ) / 0.25) ^ (((s : ℕ) : ℝ) / 10000) :=
      Real.rpow_pos_of_pos hb0 _
    have h1 : valueSliderToZoom ((s : ℕ) : ℝ) / 0.25
        = ((32 : ℝ) / 0.25) ^ (((s : ℕ) : ℝ) / 10000) := by
      unfold valueSliderToZoom
      field_simp
    unfold valueZoomToSlider mathLog
    rw [h1, if_pos hpos]
    simp only [Option.map_some']
    rw [Real.log_rpow hb0, Option.some.injEq]
    have h2 : 10000 * (((s : ℕ) : ℝ) / 10000 * Real.log (32 / 0.25))
        / Real.log (32 / 0.25) = ((s : ℕ) : ℝ) := by
      field_simp
    rw [h2]
    exact round_natCast s
  · unfold valueSliderToZoom
    norm_num
  · unfold valueSliderToZoom
    rw [show ((10000 : ℝ) / 10000) = 1 by norm_num, Real.rpow_one]
    norm_num

/-- Witness for C4 at the concrete slider value 42. -/
theorem C4_slider_zoom_inverse_witness :
    (valueZoomToSlider (valueSliderToZoom ((42 : ℕ) : ℝ))).map round
        = some ((42 : ℕ) : ℤ) ∧
    valueSliderToZoom 0 = 0.25 ∧
    valueSliderToZoom 10000 = 32 :=
  C4_slider_zoom_inverse 42 (by decide)

/-- Counterexample to C7 as stated: the mapping functions do not clamp.
valueZoomToSlider faults (math.log ValueError, modelled none) at the
out-of-domain zoom ratio 0 instead of clamping and returning a result, and
valueSliderToZoom maps the out-of-domain slider value -10000 to 1/512,
far below the domain floor 0.25, rather than clamping to the domain. -/
theorem C7_mapping_counterexample :
    valueZoomToSlider 0 = none ∧
    valueSliderToZoom (-10000) < 0.25 := by
  constructor
  · unfold valueZoomToSlider mathLog
    rw [if_neg (by norm_num : ¬ (0 : ℝ) < 0 / 0.25)]
    rfl
  · unfold valueSliderToZoom
    rw [show ((-10000 : ℝ) / 10000) = -1 by norm_num]
    rw [show (-1 : ℝ) = ((-1 : ℤ) : ℝ) by norm_num, Real.rpow_intCast]
    norm_num

/-- Claim C7 (amended): the mapping functions themselves do not clamp.
valueZoomToSlider faults for every zoom ratio at or below 0 and returns the
unclamped logarithm for every positive ratio; valueSliderToZoom is total
and maps the slider domain [0,10000] into the zoom domain [0.25, 32] (but
out-of-domain inputs to out-of-domain outputs); clamping happens only in
the slider wiring, where QSlider.setValue clamps the computed value into
[0,10000], so the sliderReset handler never stores an out-of-range slider
position for any positive zoom ratio. -/
theorem C7_mapping_no_clamp (x z ratio : ℝ) :
    (z ≤ 0 → valueZoomToSlider z = none) ∧
    (0 < z → valueZoomToSlider z
        = some (10000 * Real.log (z / 0.25) / Real.log ((32 : ℝ) / 0.25))) ∧
    (0 ≤ x → x ≤ 10000 →
      0.25 ≤ valueSliderToZoom x ∧ valueSliderToZoom x ≤ 32) ∧
    (∀ v : ℤ, 0 ≤ sliderSetValue v ∧ sliderSetValue v ≤ 10000) ∧
    (0 < ratio → ∃ v, onSliderReset ratio = some v ∧ 0 ≤ v ∧ v ≤ 10000) := by
  have hb : (1 : ℝ) < 32 / 0.25 := by norm_num
  have hpos : ∀ y : ℝ, 0 < y → valueZoomToSlider y
      = some (10000 * Real.log (y / 0.25) / Real.log ((32 : ℝ) / 0.25)) := by
    intro y hy
    have h : (0 : ℝ) < y / 0.25 := by positivity
    unfold valueZoomToSlider mathLog
    rw [if_pos h]
    rfl
  have hsv : ∀ v : ℤ, 0 ≤ sliderSetValue v ∧ sliderSetValue v ≤ 10000 := by
    intro v
    exact ⟨le_min (by norm_num) (le_max_left 0 v), min_le_left _ _⟩
  refine ⟨?_, hpos z, ?_, hsv, ?_⟩
  · intro hz
    have he : z / 0.25 = z * 4 := by ring
    have hnot : ¬ (0 : ℝ) < z / 0.25 := by
      rw [he]
      intro hcon
      nlinarith
    unfold valueZoomToSlider mathLog
    rw [if_neg hnot]
    rfl
  · intro h0 h1
    unfold valueSliderToZoom
    constructor
    · have hy : (0 : ℝ) ≤ x / 10000 := by positivity
      have hm := Real.rpow_le_rpow_of_exponent_le (le_of_lt hb) hy
      rw [Real.rpow_zero] at hm
      nlinarith
    · have hy2 : x / 10000 ≤ 1 := by linarith
      have hm := Real.rpow_le_rpow_of_exponent_le (le_of_lt hb) hy2
      rw [Real.rpow_one] at hm
      nlinarith
  · intro hr
    unfold onSliderReset
    rw [hpos ratio hr]
    exact ⟨_, rfl, hsv _⟩

/-- Witness for the amended C7 at concrete mapping inputs. -/
theorem C7_mapping_no_clamp_witness :
    valueZoomToSlider (-1) = none ∧
    valueZoomToSlider 2
      = some (10000 * Real.log (2 / 0.25) / Real.log ((32 : ℝ) / 0.25)) ∧
    (0.25 ≤ valueSliderToZoom 5000 ∧ valueSliderToZoom 5000 ≤ 32) ∧
    (0 ≤ sliderSetValue 20000 ∧ sliderSetValue 20000 ≤ 10000) ∧
    (∃ v, onSliderReset 2 = some v ∧ 0 ≤ v ∧ v ≤ 10000) :=
  ⟨(C7_mapping_no_clamp 5000 (-1) 2).1 (by norm_num),
   (C7_mapping_no_clamp 5000 2 2).2.1 (by norm_num),
   (C7_mapping_no_clamp 5000 2 2).2.2.1 (by norm_num) (by norm_num),
   (C7_mapping_no_clamp 5000 2 2).2.2.2.1 20000,
   (C7_mapping_no_clamp 5000 2 2).2.2.2.2 (by norm_num)⟩
